import Mathlib

/-!
Shallow embedding of the per-host connection-pooled HTTP client
(`client.go`): the pool manager (`acquireConn` / `releaseConn` /
`closeConn`), the request executor (`HostClient.do`), the retry layer
(`HostClient.Do`), the deadline harness (`clientDoDeadline` /
`clientDoDeadlineFreeConn`), the redirect follower
(`doRequestFollowRedirects`) and the dialer loop (`dialHostHard`).

Go machine integers are modelled as `Int`; error values as the inductive
`Err` (a `nil` Go error is `Option.none`); external effects (dial results,
transport read and write outcomes, deadline-set outcomes, wall-clock
readings, race winners) are supplied as explicit oracle inputs, so each
embedded function is a pure function of the program state and of those
inputs, exactly following the control flow of the source.
-/

/-- Error sentinels of the client.  `other n` stands for any foreign error
value (a dial error, a transport error, ...); distinct `n` are distinct
errors, and none of them equals a named sentinel. -/
inductive Err where
  | ioEOF
  | errNoFreeConns
  | errTimeout
  | errConnectionClosed
  | errMissingLocation
  | errTooManyRedirects
  | other (n : Nat)
deriving DecidableEq, Repr

/-- `DefaultMaxConnsPerHost` from the source. -/
def DefaultMaxConnsPerHost : Int := 512

/-- Pool state of a `HostClient`: `connsCount` (connections in existence,
idle plus in use; a Go `int`) and `conns` (idle slots, identified by
numeric ids, tail = most recently released, as in the source where
`releaseConn` appends and `acquireConn` pops the tail). -/
structure PoolState where
  connsCount : Int
  conns : List Nat
deriving DecidableEq, Repr

/-- The zero value of the pool state: no connections exist. -/
def initialPoolState : PoolState := ⟨0, []⟩

/-- The effective cap computed inside `acquireConn`:
`maxConns := c.MaxConns; if maxConns <= 0 { maxConns = DefaultMaxConnsPerHost }`. -/
def effectiveMaxConns (MaxConns : Int) : Int :=
  if MaxConns ≤ 0 then DefaultMaxConnsPerHost else MaxConns

/-- Result of `HostClient.acquireConn`. -/
inductive AcquireResult where
  | ok (slot : Nat)
  | fresh
  | err (e : Err)
deriving DecidableEq, Repr

/-- `HostClient.acquireConn`.  `dial` is the oracle for the
`dialHostHard` call made when a fresh connection is created: `none` means
the dial succeeded, `some e` that it failed with `e`.  If the idle list is
nonempty its tail is popped; otherwise, when `connsCount < maxConns`, the
count is incremented and a dial is attempted (decremented again via
`decConnsCount` on dial failure); otherwise `ErrNoFreeConns` is returned
with the state untouched. -/
def acquireConn (MaxConns : Int) (dial : Option Err) (s : PoolState) :
    AcquireResult × PoolState :=
  match s.conns.getLast? with
  | some cc => (AcquireResult.ok cc, { s with conns := s.conns.dropLast })
  | none =>
    let maxConns := effectiveMaxConns MaxConns
    if s.connsCount < maxConns then
      let s1 : PoolState := { s with connsCount := s.connsCount + 1 }
      match dial with
      | none => (AcquireResult.fresh, s1)
      | some e => (AcquireResult.err e, { s1 with connsCount := s1.connsCount - 1 })
    else
      (AcquireResult.err Err.errNoFreeConns, s)

/-- `HostClient.releaseConn`: append the slot to the tail of the idle list. -/
def releaseConn (cc : Nat) (s : PoolState) : PoolState :=
  { s with conns := s.conns ++ [cc] }

/-- `HostClient.closeConn` / `decConnsCount`: decrement `connsCount`
(the transport close itself has no pool-visible effect). -/
def closeConn (s : PoolState) : PoolState :=
  { s with connsCount := s.connsCount - 1 }

/-- One operation on the pool, with the dial oracle for acquisitions. -/
inductive PoolOp where
  | acquire (dial : Option Err)
  | release (cc : Nat)
  | close
deriving DecidableEq, Repr

/-- The state transition of one pool operation. -/
def poolStep (MaxConns : Int) (s : PoolState) (op : PoolOp) : PoolState :=
  match op with
  | PoolOp.acquire dial => (acquireConn MaxConns dial s).2
  | PoolOp.release cc => releaseConn cc s
  | PoolOp.close => closeConn s

/-- Run a sequence of pool operations from the zero state. -/
def runPool (MaxConns : Int) (ops : List PoolOp) : PoolState :=
  ops.foldl (poolStep MaxConns) initialPoolState

lemma effectiveMaxConns_pos (MaxConns : Int) : 0 < effectiveMaxConns MaxConns := by
  unfold effectiveMaxConns DefaultMaxConnsPerHost
  split <;> omega

lemma poolStep_le (MaxConns : Int) (s : PoolState) (op : PoolOp)
    (h : s.connsCount ≤ effectiveMaxConns MaxConns) :
    (poolStep MaxConns s op).connsCount ≤ effectiveMaxConns MaxConns := by
  cases op with
  | acquire dial =>
    simp only [poolStep, acquireConn]
    cases s.conns.getLast? with
    | some cc => simpa using h
    | none =>
      simp only
      split
      · cases dial <;> simp <;> omega
      · simpa using h
  | release cc => simpa [poolStep, releaseConn] using h
  | close => simp only [poolStep, closeConn]; omega

lemma foldl_poolStep_le (MaxConns : Int) (ops : List PoolOp) (s : PoolState)
    (h : s.connsCount ≤ effectiveMaxConns MaxConns) :
    (ops.foldl (poolStep MaxConns) s).connsCount ≤ effectiveMaxConns MaxConns := by
  induction ops generalizing s with
  | nil => simpa using h
  | cons op ops ih =>
    simpa using ih (poolStep MaxConns s op) (poolStep_le MaxConns s op h)

/-- Claim C1: for every sequence of acquireConn/releaseConn/closeConn
operations starting from the zero state, `connsCount` stays at most the
effective cap (`MaxConns`, or `DefaultMaxConnsPerHost = 512` when
`MaxConns` is not positive); and any `acquireConn` call that finds the
idle list empty and `connsCount` already at (or beyond) the cap returns
`ErrNoFreeConns` and leaves the state unchanged. -/
theorem acquireConn_cap_invariant (MaxConns : Int) (ops : List PoolOp)
    (dial : Option Err) (s : PoolState)
    (hconns : s.conns = []) (hcap : effectiveMaxConns MaxConns ≤ s.connsCount) :
    (runPool MaxConns ops).connsCount ≤ effectiveMaxConns MaxConns ∧
    acquireConn MaxConns dial s = (AcquireResult.err Err.errNoFreeConns, s) := by
  constructor
  · exact foldl_poolStep_le MaxConns ops initialPoolState
      (by simpa [initialPoolState] using le_of_lt (effectiveMaxConns_pos MaxConns))
  · simp only [acquireConn, hconns, List.getLast?_nil]
    split
    · omega
    · rfl

/-- Witness for C1 at `MaxConns = 2`, three operations, and an acquire at
the cap. -/
theorem acquireConn_cap_invariant_witness :
    (runPool 2 [PoolOp.acquire none, PoolOp.acquire none,
      PoolOp.acquire none]).connsCount ≤ effectiveMaxConns 2 ∧
    acquireConn 2 none ⟨2, []⟩ =
      (AcquireResult.err Err.errNoFreeConns, ⟨2, []⟩) :=
  acquireConn_cap_invariant 2 _ none ⟨2, []⟩ rfl (by decide)

/-- A request, reduced to the fields the executor inspects: the method
string and the Connection-close flag of its header (the User-Agent swap in
`HostClient.do` has no effect on any output modelled here). -/
structure Request where
  method : String
  connectionClose : Bool
deriving DecidableEq, Repr

/-- `RequestHeader.IsGet`: the method bytes equal `strGet`. -/
def Request.IsGet (req : Request) : Bool := req.method == "GET"

/-- `RequestHeader.IsHead`: the method bytes equal `strHead`. -/
def Request.IsHead (req : Request) : Bool := req.method == "HEAD"

/-- `RequestHeader.IsPut`: the method bytes equal `strPut`. -/
def Request.IsPut (req : Request) : Bool := req.method == "PUT"

/-- `isIdempotent`: GET, HEAD or PUT. -/
def isIdempotent (req : Request) : Bool :=
  req.IsGet || req.IsHead || req.IsPut

/-- Oracle inputs for one run of `HostClient.do`: the outcome of the
connection acquisition, the relevant configuration fields, the age of the
acquired connection (`time.Since(cc.createdTime)`), and the outcomes of
every fallible external step, in program order.  `none` means the step
succeeded. -/
structure DoEnv where
  acquireErr : Option Err
  writeTimeout : Int
  readTimeout : Int
  maxConnDuration : Int
  connAge : Int
  setWriteDeadlineErr : Option Err
  writeErr : Option Err
  flushErr : Option Err
  setReadDeadlineErr : Option Err
  readErr : Option Err
  respConnClose : Bool
deriving DecidableEq, Repr

/-- What became of the acquired connection slot. -/
inductive Disposition where
  | notAcquired
  | closed
  | released
deriving DecidableEq, Repr

/-- Observable outcome of one run of `HostClient.do`: the `(retry, err)`
return value, the slot disposition, whether `resp.SkipBody` was set before
the response read, and whether a scratch response was acquired from /
released to the response pool (only when the caller passed `resp == nil`). -/
structure DoResult where
  retry : Bool
  err : Option Err
  disp : Disposition
  skipBody : Bool
  scratchAcquired : Bool
  scratchReleased : Bool
deriving DecidableEq, Repr

/-- The `resetConnection` flag computed in `HostClient.do`:
`MaxConnDuration > 0 && time.Since(cc.createdTime) > MaxConnDuration &&
!req.ConnectionClose()`. -/
def resetConnectionOf (env : DoEnv) (req : Request) : Bool :=
  decide (0 < env.maxConnDuration) && decide (env.maxConnDuration < env.connAge) &&
    !req.connectionClose

/-- `HostClient.do`, as a pure function of the oracle `env`, the request
and the nil-ness of the caller's response.  The control flow mirrors the
source: acquire; set the write deadline when `WriteTimeout > 0`; compute
`resetConnection` (the header's Connection: close is set for the write and
reset right after, so the final disposition test sees the original flag
together with `resetConnection`); write then flush; acquire a scratch
response when `resp == nil`; set the read deadline when `ReadTimeout > 0`;
set `SkipBody` for a HEAD (and not GET) request; read the response; close
the slot on every error, otherwise close or release it according to the
Connection: close flags. -/
def hostDo (env : DoEnv) (req : Request) (respNil : Bool) : DoResult :=
  match env.acquireErr with
  | some e => ⟨false, some e, Disposition.notAcquired, false, false, false⟩
  | none =>
    if 0 < env.writeTimeout ∧ env.setWriteDeadlineErr.isSome then
      ⟨true, env.setWriteDeadlineErr, Disposition.closed, false, false, false⟩
    else
      let resetConnection := resetConnectionOf env req
      let writeFlushErr :=
        match env.writeErr with
        | some e => some e
        | none => env.flushErr
      match writeFlushErr with
      | some e => ⟨true, some e, Disposition.closed, false, false, false⟩
      | none =>
        let nilResp := respNil
        if 0 < env.readTimeout ∧ env.setReadDeadlineErr.isSome then
          ⟨true, env.setReadDeadlineErr, Disposition.closed, false, nilResp, nilResp⟩
        else
          let skipBody := !req.IsGet && req.IsHead
          match env.readErr with
          | some e =>
            ⟨decide (e = Err.ioEOF), some e, Disposition.closed, skipBody, nilResp, nilResp⟩
          | none =>
            let disp :=
              if resetConnection || req.connectionClose || env.respConnClose then
                Disposition.closed
              else
                Disposition.released
            ⟨false, none, disp, skipBody, nilResp, nilResp⟩

/-- Whether the run of `HostClient.do` under `env` reaches the response
read (no acquisition, deadline-setting, write or flush failure). -/
def ReachesRead (env : DoEnv) : Prop :=
  env.acquireErr = none ∧
  ¬(0 < env.writeTimeout ∧ env.setWriteDeadlineErr.isSome) ∧
  env.writeErr = none ∧ env.flushErr = none ∧
  ¬(0 < env.readTimeout ∧ env.setReadDeadlineErr.isSome)

instance (env : DoEnv) : Decidable (ReachesRead env) := by
  unfold ReachesRead
  infer_instance

/-- Claim C3: on every error path of `HostClient.do` after a connection
slot was acquired the slot is closed (never released to the idle pool);
after an error-free exchange it is closed exactly when `resetConnection`
was set or the request or the response carries Connection: close, and
released to the pool otherwise. -/
theorem hostDo_disposition (env : DoEnv) (req : Request) (respNil : Bool) :
    (env.acquireErr = none → (hostDo env req respNil).err.isSome →
      (hostDo env req respNil).disp = Disposition.closed) ∧
    ((hostDo env req respNil).err = none →
      (hostDo env req respNil).disp =
        (if resetConnectionOf env req || req.connectionClose || env.respConnClose then
          Disposition.closed
        else
          Disposition.released)) := by
  unfold hostDo
  cases h : env.acquireErr with
  | some e => simp [h]
  | none =>
    simp only [h]
    split
    · rename_i hc
      refine ⟨fun _ _ => rfl, fun hn =>
        absurd hc.2 (by simp [show env.setWriteDeadlineErr = none from hn])⟩
    · cases hw : env.writeErr with
      | some e => simp
      | none =>
        cases hf : env.flushErr with
        | some e => simp
        | none =>
          simp only
          split
          · rename_i hc
            refine ⟨fun _ _ => rfl, fun hn =>
              absurd hc.2 (by simp [show env.setReadDeadlineErr = none from hn])⟩
          · cases hr : env.readErr with
            | some e => simp
            | none => simp

/-- Witness for C3: a read failure closes the slot, and a clean exchange
with no Connection: close releases it. -/
theorem hostDo_disposition_witness :
    (hostDo ⟨none, 0, 0, 0, 0, none, none, none, none, some (Err.other 7), false⟩
      ⟨"GET", false⟩ false).disp = Disposition.closed ∧
    (hostDo ⟨none, 0, 0, 0, 0, none, none, none, none, none, false⟩
      ⟨"GET", false⟩ false).disp = Disposition.released :=
  ⟨(hostDo_disposition ⟨none, 0, 0, 0, 0, none, none, none, none, some (Err.other 7), false⟩
      ⟨"GET", false⟩ false).1 rfl (by decide),
   by
    have h := (hostDo_disposition ⟨none, 0, 0, 0, 0, none, none, none, none, none, false⟩
      ⟨"GET", false⟩ false).2 (by decide)
    simpa using h⟩

/-- Claim C9: `HostClient.do` sets `resp.SkipBody` before reading the
response whenever the request method is HEAD (and the run reaches the
read), and the compound test actually written in the source,
`!IsGet && IsHead`, is equivalent to `IsHead` alone. -/
theorem hostDo_skipBody_head (env : DoEnv) (req : Request) (respNil : Bool)
    (hmethod : req.method = "HEAD") (hreach : ReachesRead env) :
    (hostDo env req respNil).skipBody = true ∧
    ∀ r : Request, (!r.IsGet && r.IsHead) = r.IsHead := by
  obtain ⟨h1, h2, h3, h4, h5⟩ := hreach
  constructor
  · unfold hostDo
    rw [h1]
    simp only [if_neg h2, h3, h4, if_neg h5]
    cases hr : env.readErr <;>
      simp [Request.IsGet, Request.IsHead, hmethod]
  · intro r
    by_cases h : r.method = "HEAD" <;>
      simp [Request.IsGet, Request.IsHead, h]

/-- Witness for C9 at a HEAD request and an error-free environment. -/
theorem hostDo_skipBody_head_witness :
    (hostDo ⟨none, 0, 0, 0, 0, none, none, none, none, none, false⟩
      ⟨"HEAD", false⟩ false).skipBody = true :=
  (hostDo_skipBody_head ⟨none, 0, 0, 0, 0, none, none, none, none, none, false⟩
    ⟨"HEAD", false⟩ false rfl (by decide)).1

/-- Claim C10: `HostClient.do` with a nil response behaves exactly as with
a caller-supplied response — same `(retry, err)` outcome, same slot
disposition, same `SkipBody` computation — and the scratch response it
acquires from the response pool is released on every exit path (the
acquired/released flags always agree). -/
theorem hostDo_nilResp (env : DoEnv) (req : Request) :
    (hostDo env req true).retry = (hostDo env req false).retry ∧
    (hostDo env req true).err = (hostDo env req false).err ∧
    (hostDo env req true).disp = (hostDo env req false).disp ∧
    (hostDo env req true).skipBody = (hostDo env req false).skipBody ∧
    (hostDo env req true).scratchAcquired = (hostDo env req true).scratchReleased := by
  unfold hostDo
  cases env.acquireErr with
  | some e => simp
  | none =>
    simp only
    split
    · simp
    · cases env.writeErr with
      | some e => simp
      | none =>
        cases env.flushErr with
        | some e => simp
        | none =>
          simp only
          split
          · simp
          · cases env.readErr <;> simp

/-- `HostClient.Do`: run `do` once; if it returned a non-nil error with the
retry flag set and the request is idempotent, run `do` once more; finally
convert an `io.EOF` result into `ErrConnectionClosed`.  `env1` and `env2`
are the oracles for the first and the (possible) second run; the returned
pair is (number of runs of `do`, final error). -/
def HostClientDo (env1 env2 : DoEnv) (req : Request) (respNil : Bool) :
    Nat × Option Err :=
  if (hostDo env1 req respNil).err.isSome ∧ (hostDo env1 req respNil).retry ∧
      isIdempotent req then
    (2, if (hostDo env2 req respNil).err = some Err.ioEOF then
          some Err.errConnectionClosed
        else (hostDo env2 req respNil).err)
  else
    (1, if (hostDo env1 req respNil).err = some Err.ioEOF then
          some Err.errConnectionClosed
        else (hostDo env1 req respNil).err)

/-- Claim C2: `HostClient.Do` runs the underlying exchange at most twice;
a second attempt happens exactly when the first returned a non-nil error
flagged retryable and the method is idempotent (GET, HEAD or PUT); for any
other method — in particular POST — there is never a second attempt. -/
theorem hostClientDo_retry_bound (env1 env2 : DoEnv) (req : Request) (respNil : Bool) :
    (HostClientDo env1 env2 req respNil).1 ≤ 2 ∧
    ((HostClientDo env1 env2 req respNil).1 = 2 ↔
      ((hostDo env1 req respNil).err.isSome ∧ (hostDo env1 req respNil).retry ∧
        isIdempotent req)) ∧
    (isIdempotent req = false → (HostClientDo env1 env2 req respNil).1 = 1) ∧
    (req.method = "POST" → (HostClientDo env1 env2 req respNil).1 = 1) ∧
    (∀ r : Request, isIdempotent r = true ↔
      (r.method = "GET" ∨ r.method = "HEAD" ∨ r.method = "PUT")) := by
  refine ⟨?_, ?_, ?_, ?_, ?_⟩
  · unfold HostClientDo
    split <;> simp
  · unfold HostClientDo
    split
    · rename_i h
      simpa using h
    · rename_i h
      simpa using h
  · intro hni
    unfold HostClientDo
    split
    · rename_i h
      rw [hni] at h
      simp at h
    · rfl
  · intro hpost
    unfold HostClientDo
    split
    · rename_i h
      have : isIdempotent req = true := h.2.2
      simp [isIdempotent, Request.IsGet, Request.IsHead, Request.IsPut, hpost] at this
    · rfl
  · intro r
    simp [isIdempotent, Request.IsGet, Request.IsHead, Request.IsPut]
    tauto

/-- Witness for C2 at a POST whose first attempt fails retryably: one
attempt only. -/
theorem hostClientDo_retry_bound_witness :
    (HostClientDo ⟨none, 0, 0, 0, 0, none, none, none, none, some Err.ioEOF, false⟩
      ⟨none, 0, 0, 0, 0, none, none, none, none, none, false⟩
      ⟨"POST", false⟩ false).1 = 1 :=
  (hostClientDo_retry_bound
    ⟨none, 0, 0, 0, 0, none, none, none, none, some Err.ioEOF, false⟩
    ⟨none, 0, 0, 0, 0, none, none, none, none, none, false⟩
    ⟨"POST", false⟩ false).2.2.2.1 rfl

/-- Claim C7: whenever the last attempt made by `HostClient.Do` ends with
`io.EOF` — the first and only attempt for a non-idempotent request, or the
second attempt when a retry happened — `Do` returns `ErrConnectionClosed`
in its place. -/
theorem hostClientDo_eof_surfaced (env1 env2 : DoEnv) (req : Request) (respNil : Bool) :
    (isIdempotent req = false → (hostDo env1 req respNil).err = some Err.ioEOF →
      (HostClientDo env1 env2 req respNil).2 = some Err.errConnectionClosed) ∧
    ((hostDo env1 req respNil).err.isSome → (hostDo env1 req respNil).retry →
      isIdempotent req = true → (hostDo env2 req respNil).err = some Err.ioEOF →
      (HostClientDo env1 env2 req respNil).2 = some Err.errConnectionClosed) := by
  constructor
  · intro hni h1
    unfold HostClientDo
    split
    · rename_i h
      rw [hni] at h
      simp at h
    · simp [h1]
  · intro h1 h2 h3 h4
    unfold HostClientDo
    split
    · simp [h4]
    · rename_i h
      exact absurd ⟨by simp [h1], by simp [h2], by simp [h3]⟩ h

/-- Witness for C7: a POST whose single attempt ends in `io.EOF` yields
`ErrConnectionClosed`. -/
theorem hostClientDo_eof_surfaced_witness :
    (HostClientDo ⟨none, 0, 0, 0, 0, none, none, none, none, some Err.ioEOF, false⟩
      ⟨none, 0, 0, 0, 0, none, none, none, none, none, false⟩
      ⟨"POST", false⟩ false).2 = some Err.errConnectionClosed :=
  (hostClientDo_eof_surfaced
    ⟨none, 0, 0, 0, 0, none, none, none, none, some Err.ioEOF, false⟩
    ⟨none, 0, 0, 0, 0, none, none, none, none, none, false⟩
    ⟨"POST", false⟩ false).1 (by decide) (by decide)

/-- Winner of the select race inside `clientDoDeadlineFreeConn`: either
the background `c.Do` finished first with result `e` (`nil` = `none`), or
the timer fired first. -/
inductive RaceOutcome where
  | inner (e : Option Err)
  | timer
deriving DecidableEq, Repr

/-- `clientDoDeadlineFreeConn`: compute `timeout := deadline - now`; if it
is not positive, return `ErrTimeout` at once, spawning nothing; otherwise
spawn the background task and race it against the timer — the channel
winner yields the inner error, the timer winner yields `ErrTimeout`.  The
second component records whether the background task was spawned. -/
def clientDoDeadlineFreeConn (now deadline : Int) (race : RaceOutcome) :
    Option Err × Bool :=
  if deadline - now ≤ 0 then
    (some Err.errTimeout, false)
  else
    match race with
    | RaceOutcome.inner e => (e, true)
    | RaceOutcome.timer => (some Err.errTimeout, true)

/-- `clientDoDeadline` (the body of `DoDeadline` and `DoTimeout`): call
`clientDoDeadlineFreeConn` repeatedly, sleeping with backoff, until it
returns something other than `ErrNoFreeConns`.  `times k` is the clock
reading at iteration `k` and `races k` the race winner there; `fuel`
bounds the unrolling of the source's unbounded `for` loop, `none` meaning
the loop was still running when the fuel ran out. -/
def clientDoDeadline (fuel : Nat) (times : Nat → Int) (deadline : Int)
    (races : Nat → RaceOutcome) (k : Nat) : Option (Option Err) :=
  match fuel with
  | 0 => none
  | fuel + 1 =>
    if (clientDoDeadlineFreeConn (times k) deadline (races k)).1 =
        some Err.errNoFreeConns then
      clientDoDeadline fuel times deadline races (k + 1)
    else
      some (clientDoDeadlineFreeConn (times k) deadline (races k)).1

lemma clientDoDeadline_ne_noFreeConns (fuel : Nat) (times : Nat → Int)
    (deadline : Int) (races : Nat → RaceOutcome) :
    ∀ k e, clientDoDeadline fuel times deadline races k = some e →
      e ≠ some Err.errNoFreeConns := by
  induction fuel with
  | zero => intro k e h; simp [clientDoDeadline] at h
  | succ fuel ih =>
    intro k e h
    unfold clientDoDeadline at h
    split at h
    · exact ih (k + 1) e h
    · rename_i hne
      rw [← Option.some_inj.mp h]
      exact hne

/-- Claim C4: the deadline harness never surfaces `ErrNoFreeConns` — a
call of `clientDoDeadlineFreeConn` whose deadline is at or before the
current clock returns `ErrTimeout` immediately without spawning the
background task; the `clientDoDeadline` loop repeats the attempt whenever
the inner call returns `ErrNoFreeConns`; and any value the loop returns is
either `ErrTimeout` or an error (or success) other than `ErrNoFreeConns`. -/
theorem clientDoDeadline_shields_noFreeConns (fuel : Nat) (times : Nat → Int)
    (deadline : Int) (races : Nat → RaceOutcome) (k : Nat) :
    (∀ now race, deadline ≤ now →
      clientDoDeadlineFreeConn now deadline race = (some Err.errTimeout, false)) ∧
    ((clientDoDeadlineFreeConn (times k) deadline (races k)).1 =
        some Err.errNoFreeConns →
      clientDoDeadline (fuel + 1) times deadline races k =
        clientDoDeadline fuel times deadline races (k + 1)) ∧
    (∀ e, clientDoDeadline fuel times deadline races k = some e →
      e ≠ some Err.errNoFreeConns) := by
  refine ⟨?_, ?_, ?_⟩
  · intro now race hle
    unfold clientDoDeadlineFreeConn
    rw [if_pos (by omega)]
  · intro h
    cases fuel with
    | zero =>
      unfold clientDoDeadline
      rw [if_pos h]
      unfold clientDoDeadline
      rfl
    | succ n =>
      conv_lhs => unfold clientDoDeadline
      rw [if_pos h]
  · exact clientDoDeadline_ne_noFreeConns fuel times deadline races k

/-- Witness for C4: with the deadline already in the past the single
iteration returns `ErrTimeout` and the loop result is not
`ErrNoFreeConns`. -/
theorem clientDoDeadline_shields_noFreeConns_witness :
    clientDoDeadlineFreeConn 5 3 RaceOutcome.timer = (some Err.errTimeout, false) ∧
    (some Err.errTimeout : Option Err) ≠ some Err.errNoFreeConns :=
  ⟨(clientDoDeadline_shields_noFreeConns 1 (fun _ => 5) 3 (fun _ => RaceOutcome.timer) 0).1
      5 RaceOutcome.timer (by omega),
   (clientDoDeadline_shields_noFreeConns 1 (fun _ => 5) 3 (fun _ => RaceOutcome.timer) 0).2.2
      (some Err.errTimeout) (by decide)⟩

/-- `StatusMovedPermanently` (301). -/
def StatusMovedPermanently : Nat := 301

/-- `StatusFound` (302). -/
def StatusFound : Nat := 302

/-- `StatusSeeOther` (303). -/
def StatusSeeOther : Nat := 303

/-- `maxRedirectsCount` from the source. -/
def maxRedirectsCount : Nat := 16

/-- A response as seen by the redirect follower: its status code and its
Location header (`""` for absent). -/
structure RedirectResp where
  statusCode : Nat
  location : String
deriving DecidableEq, Repr

/-- The statuses the follower treats as redirects (the complement of the
break condition `statusCode != 301 && statusCode != 302 && statusCode != 303`). -/
def isRedirectStatus (sc : Nat) : Prop :=
  sc = StatusMovedPermanently ∨ sc = StatusFound ∨ sc = StatusSeeOther

instance (sc : Nat) : Decidable (isRedirectStatus sc) := by
  unfold isRedirectStatus
  infer_instance

/-- The loop of `doRequestFollowRedirects`: `doResults i` is the outcome
of the i-th `c.Do` call (`error e` for a non-nil error, `ok resp` for a
filled response).  Each iteration: on a `Do` error break with the previous
status; on a non-redirect status break with it and a nil error; otherwise
increment the counter and break with `errTooManyRedirects` past
`maxRedirectsCount`, break with `errMissingLocation` on an empty Location,
or follow the Location and loop.  `fuel` bounds the unrolling of the
source's unbounded `for`; `none` means the fuel ran out.  The returned
pair is (statusCode, err); the body bytes are not modelled. -/
def doRequestFollowRedirects (doResults : Nat → Except Err RedirectResp) :
    Nat → Nat → Nat → Nat → Option (Nat × Option Err)
  | 0, _, _, _ => none
  | fuel + 1, i, redirectsCount, statusCode =>
    match doResults i with
    | Except.error e => some (statusCode, some e)
    | Except.ok resp =>
      if resp.statusCode ≠ StatusMovedPermanently ∧ resp.statusCode ≠ StatusFound ∧
          resp.statusCode ≠ StatusSeeOther then
        some (resp.statusCode, none)
      else if redirectsCount + 1 > maxRedirectsCount then
        some (resp.statusCode, some Err.errTooManyRedirects)
      else if resp.location = "" then
        some (resp.statusCode, some Err.errMissingLocation)
      else
        doRequestFollowRedirects doResults fuel (i + 1) (redirectsCount + 1)
          resp.statusCode

lemma not_isRedirectStatus_iff (sc : Nat) :
    ¬ isRedirectStatus sc ↔
      (sc ≠ StatusMovedPermanently ∧ sc ≠ StatusFound ∧ sc ≠ StatusSeeOther) := by
  unfold isRedirectStatus
  tauto

lemma isRedirectStatus_not_break (sc : Nat) (h : isRedirectStatus sc) :
    ¬(sc ≠ StatusMovedPermanently ∧ sc ≠ StatusFound ∧ sc ≠ StatusSeeOther) := by
  unfold isRedirectStatus at h
  tauto

lemma followRedirects_success (doResults : Nat → Except Err RedirectResp) :
    ∀ (m i rc sc fuel : Nat) (r : RedirectResp),
      (∀ j, j < m → ∃ q, doResults (i + j) = Except.ok q ∧
        isRedirectStatus q.statusCode ∧ q.location ≠ "") →
      doResults (i + m) = Except.ok r →
      ¬ isRedirectStatus r.statusCode →
      rc + m ≤ maxRedirectsCount →
      m < fuel →
      doRequestFollowRedirects doResults fuel i rc sc = some (r.statusCode, none) := by
  intro m
  induction m with
  | zero =>
    intro i rc sc fuel r hchain hfin hnred hle hfuel
    cases fuel with
    | zero => omega
    | succ fuel =>
      unfold doRequestFollowRedirects
      rw [Nat.add_zero] at hfin
      simp only [hfin]
      rw [if_pos ((not_isRedirectStatus_iff r.statusCode).mp hnred)]
  | succ m ih =>
    intro i rc sc fuel r hchain hfin hnred hle hfuel
    obtain ⟨q, hq, hqred, hqloc⟩ := hchain 0 (by omega)
    cases fuel with
    | zero => omega
    | succ fuel =>
      unfold doRequestFollowRedirects
      rw [Nat.add_zero] at hq
      simp only [hq]
      rw [if_neg (isRedirectStatus_not_break q.statusCode hqred)]
      rw [if_neg (by unfold maxRedirectsCount at *; omega)]
      rw [if_neg hqloc]
      have hchain1 : ∀ j, j < m → ∃ p, doResults (i + 1 + j) = Except.ok p ∧
          isRedirectStatus p.statusCode ∧ p.location ≠ "" := by
        intro j hj
        have := hchain (j + 1) (by omega)
        simpa [Nat.add_comm, Nat.add_assoc, Nat.add_left_comm] using this
      exact ih (i + 1) (rc + 1) q.statusCode fuel r hchain1
        (by simpa [Nat.add_comm, Nat.add_assoc, Nat.add_left_comm] using hfin)
        hnred (by omega) (by omega)

lemma followRedirects_tooMany (doResults : Nat → Except Err RedirectResp) :
    ∀ (m i rc sc fuel : Nat),
      (∀ j, j < m → ∃ q, doResults (i + j) = Except.ok q ∧
        isRedirectStatus q.statusCode ∧ q.location ≠ "") →
      maxRedirectsCount + 1 ≤ rc + m →
      rc ≤ maxRedirectsCount →
      maxRedirectsCount + 1 - rc ≤ fuel →
      ∃ s, doRequestFollowRedirects doResults fuel i rc sc =
        some (s, some Err.errTooManyRedirects) := by
  intro m
  induction m with
  | zero =>
    intro i rc sc fuel hchain hge hle hfuel
    exfalso
    omega
  | succ m ih =>
    intro i rc sc fuel hchain hge hle hfuel
    obtain ⟨q, hq, hqred, hqloc⟩ := hchain 0 (by omega)
    cases fuel with
    | zero => exfalso; unfold maxRedirectsCount at *; omega
    | succ fuel =>
      unfold doRequestFollowRedirects
      rw [Nat.add_zero] at hq
      simp only [hq]
      rw [if_neg (isRedirectStatus_not_break q.statusCode hqred)]
      by_cases hcap : rc + 1 > maxRedirectsCount
      · rw [if_pos hcap]
        exact ⟨q.statusCode, rfl⟩
      · rw [if_neg hcap]
        rw [if_neg hqloc]
        have hchain1 : ∀ j, j < m → ∃ p, doResults (i + 1 + j) = Except.ok p ∧
            isRedirectStatus p.statusCode ∧ p.location ≠ "" := by
          intro j hj
          have := hchain (j + 1) (by omega)
          simpa [Nat.add_comm, Nat.add_assoc, Nat.add_left_comm] using this
        exact ih (i + 1) (rc + 1) q.statusCode fuel hchain1 (by omega)
          (by omega) (by omega)

/-- Claim C5: for a sequence of `k` redirect responses (each with a
nonempty Location) followed by a non-redirect response, the follower
returns the final response when `k ≤ 16`, and `errTooManyRedirects` when
`k ≥ 17`. -/
theorem doRequestFollowRedirects_bounded (doResults : Nat → Except Err RedirectResp)
    (k : Nat) (r : RedirectResp)
    (hchain : ∀ j, j < k → ∃ q, doResults j = Except.ok q ∧
      isRedirectStatus q.statusCode ∧ q.location ≠ "")
    (hfin : doResults k = Except.ok r) (hnred : ¬ isRedirectStatus r.statusCode) :
    (k ≤ 16 →
      doRequestFollowRedirects doResults (k + 1) 0 0 0 = some (r.statusCode, none)) ∧
    (17 ≤ k →
      ∃ s, doRequestFollowRedirects doResults 17 0 0 0 =
        some (s, some Err.errTooManyRedirects)) := by
  constructor
  · intro hk
    exact followRedirects_success doResults k 0 0 0 (k + 1) r
      (by intro j hj; simpa using hchain j hj)
      (by simpa using hfin) hnred (by unfold maxRedirectsCount; omega) (by omega)
  · intro hk
    exact followRedirects_tooMany doResults k 0 0 0 17
      (by intro j hj; simpa using hchain j hj)
      (by unfold maxRedirectsCount; omega) (by unfold maxRedirectsCount; omega)
      (by unfold maxRedirectsCount; omega)

/-- Witness for C5: two 302 hops then a 200 return (200, nil). -/
theorem doRequestFollowRedirects_bounded_witness :
    doRequestFollowRedirects
      (fun i => if i < 2 then Except.ok ⟨302, "n"⟩ else Except.ok ⟨200, ""⟩)
      3 0 0 0 = some (200, none) :=
  (doRequestFollowRedirects_bounded
    (fun i => if i < 2 then Except.ok ⟨302, "n"⟩ else Except.ok ⟨200, ""⟩)
    2 ⟨200, ""⟩
    (by
      intro j hj
      interval_cases j <;>
        exact ⟨⟨302, "n"⟩, rfl, by decide, by decide⟩)
    rfl (by decide)).1 (by omega)

/-- Claim C6: exactly the statuses 301, 302 and 303 are treated as
redirects; any response with another status (307 and 308 included)
terminates the loop with that response and no error; and a redirect
response whose Location is empty (when the hop counter has not yet
overflowed) terminates the loop with `errMissingLocation`. -/
theorem doRequestFollowRedirects_classification :
    (∀ sc, isRedirectStatus sc ↔ (sc = 301 ∨ sc = 302 ∨ sc = 303)) ∧
    (∀ (doResults : Nat → Except Err RedirectResp) (fuel i rc sc : Nat)
        (r : RedirectResp), doResults i = Except.ok r →
      ¬ isRedirectStatus r.statusCode →
      doRequestFollowRedirects doResults (fuel + 1) i rc sc =
        some (r.statusCode, none)) ∧
    (∀ (doResults : Nat → Except Err RedirectResp) (fuel i rc sc : Nat)
        (r : RedirectResp), doResults i = Except.ok r →
      isRedirectStatus r.statusCode → r.location = "" →
      rc + 1 ≤ maxRedirectsCount →
      doRequestFollowRedirects doResults (fuel + 1) i rc sc =
        some (r.statusCode, some Err.errMissingLocation)) := by
  refine ⟨?_, ?_, ?_⟩
  · intro sc
    unfold isRedirectStatus StatusMovedPermanently StatusFound StatusSeeOther
    tauto
  · intro doResults fuel i rc sc r hr hnred
    unfold doRequestFollowRedirects
    simp only [hr]
    rw [if_pos ((not_isRedirectStatus_iff r.statusCode).mp hnred)]
  · intro doResults fuel i rc sc r hr hred hloc hcap
    unfold doRequestFollowRedirects
    simp only [hr]
    rw [if_neg (isRedirectStatus_not_break r.statusCode hred)]
    rw [if_neg (by omega)]
    rw [if_pos hloc]

/-- Witness for C6: a 307 response is returned as-is with no error, and a
302 with an empty Location yields `errMissingLocation`. -/
theorem doRequestFollowRedirects_classification_witness :
    doRequestFollowRedirects (fun _ => Except.ok ⟨307, ""⟩) 1 0 0 0 =
      some (307, none) ∧
    doRequestFollowRedirects (fun _ => Except.ok ⟨302, ""⟩) 1 0 0 0 =
      some (302, some Err.errMissingLocation) :=
  ⟨doRequestFollowRedirects_classification.2.1
      (fun _ => Except.ok ⟨307, ""⟩) 0 0 0 0 ⟨307, ""⟩ rfl (by decide),
   doRequestFollowRedirects_classification.2.2
      (fun _ => Except.ok ⟨302, ""⟩) 0 0 0 0 ⟨302, ""⟩ rfl (by decide) rfl
      (by decide)⟩

/-- The overall deadline computed by `dialHostHard`:
`timeout := ReadTimeout + WriteTimeout; if timeout <= 0 { timeout =
DefaultDialTimeout }; deadline := now.Add(timeout)`.  `ddt` stands for
`DefaultDialTimeout`, a constant of the dialer that lives outside the
embedded file. -/
def dialDeadline (now readTimeout writeTimeout ddt : Int) : Int :=
  now + (if readTimeout + writeTimeout ≤ 0 then ddt else readTimeout + writeTimeout)

/-- The `for n > 0` loop of `dialHostHard`.  `dials i` is the outcome of
the i-th `dialHost` call (`none` = success); `times i` is the clock
reading at the `time.Since(deadline) >= 0` check after the i-th failed
call.  The pair returned is (final error, number of dial attempts made):
on success the error is `none`; after a failed attempt the loop breaks
when the deadline has passed, else decrements `n` and retries; when `n`
reaches zero the last error is returned. -/
def dialLoop (dials : Nat → Option Err) (times : Nat → Int) (deadline : Int) :
    Nat → Nat → Option Err → Option Err × Nat
  | 0, i, lastErr => (lastErr, i)
  | n + 1, i, _ =>
    match dials i with
    | none => (none, i + 1)
    | some e =>
      if 0 ≤ times i - deadline then (some e, i + 1)
      else dialLoop dials times deadline n (i + 1) (some e)

/-- `HostClient.dialHostHard`: `n := len(addrs)` (or 1 when the address
list is not yet populated), then run the dial loop against the computed
deadline. -/
def dialHostHard (addrsLen : Nat) (readTimeout writeTimeout now ddt : Int)
    (dials : Nat → Option Err) (times : Nat → Int) : Option Err × Nat :=
  dialLoop dials times (dialDeadline now readTimeout writeTimeout ddt)
    (if addrsLen = 0 then 1 else addrsLen) 0 none

lemma dialLoop_attempts_le (dials : Nat → Option Err) (times : Nat → Int) (dl : Int) :
    ∀ (n i : Nat) (le : Option Err), (dialLoop dials times dl n i le).2 ≤ i + n := by
  intro n
  induction n with
  | zero =>
    intro i le
    unfold dialLoop
    simp
  | succ n ih =>
    intro i le
    unfold dialLoop
    cases hd : dials i with
    | none => simp
    | some e =>
      simp only
      by_cases hs : 0 ≤ times i - dl
      · rw [if_pos hs]
        simp
      · rw [if_neg hs]
        have := ih (i + 1) (some e)
        omega

lemma dialLoop_all_fail (dials : Nat → Option Err) (times : Nat → Int) (dl : Int) :
    ∀ (n i : Nat) (le : Option Err), 1 ≤ n → (∀ j, (dials j).isSome) →
      ∃ a, i + 1 ≤ a ∧ dialLoop dials times dl n i le = (dials (a - 1), a) := by
  intro n
  induction n with
  | zero =>
    intro i le h
    omega
  | succ n ih =>
    intro i le h1 hall
    unfold dialLoop
    cases hd : dials i with
    | none =>
      have := hall i
      rw [hd] at this
      simp at this
    | some e =>
      simp only
      by_cases hs : 0 ≤ times i - dl
      · rw [if_pos hs]
        exact ⟨i + 1, by omega, by rw [Nat.add_sub_cancel, hd]⟩
      · rw [if_neg hs]
        cases n with
        | zero =>
          refine ⟨i + 1, by omega, ?_⟩
          unfold dialLoop
          rw [Nat.add_sub_cancel, hd]
        | succ n =>
          obtain ⟨a, ha1, ha2⟩ := ih (i + 1) (some e) (by omega) hall
          exact ⟨a, by omega, ha2⟩

lemma dialLoop_early_stop (dials : Nat → Option Err) (times : Nat → Int) (dl : Int) :
    ∀ (m n i : Nat) (le : Option Err),
      (∀ j, i ≤ j → j ≤ i + m → (dials j).isSome) →
      (∀ j, i ≤ j → j < i + m → times j - dl < 0) →
      0 ≤ times (i + m) - dl →
      m + 1 ≤ n →
      dialLoop dials times dl n i le = (dials (i + m), i + m + 1) := by
  intro m
  induction m with
  | zero =>
    intro n i le hsome htimes hstop hn
    rw [Nat.add_zero] at hstop ⊢
    cases n with
    | zero => omega
    | succ n =>
      unfold dialLoop
      cases hd : dials i with
      | none =>
        exact absurd (hsome i (le_refl i) (by omega)) (by simp [hd])
      | some e =>
        simp only
        rw [if_pos hstop]
  | succ m ih =>
    intro n i le hsome htimes hstop hn
    cases n with
    | zero => omega
    | succ n =>
      unfold dialLoop
      cases hd : dials i with
      | none =>
        exact absurd (hsome i (le_refl i) (by omega)) (by simp [hd])
      | some e =>
        simp only
        rw [if_neg (by have := htimes i (le_refl i) (by omega); omega)]
        rw [show i + (m + 1) = i + 1 + m from by omega]
        exact ih n (i + 1) (some e)
          (fun j h1 h2 => hsome j (by omega) (by omega))
          (fun j h1 h2 => htimes j (by omega) (by omega))
          (by rw [show i + 1 + m = i + (m + 1) from by omega]; exact hstop)
          (by omega)

/-- Claim C8: `dialHostHard` makes at most `len(addrs)` dial attempts
(exactly one when the address list is not yet populated); its overall
deadline is `now + (ReadTimeout + WriteTimeout)`, falling back to
`now + DefaultDialTimeout` exactly when both (nonnegative) timeouts are
zero; after a failed attempt it stops as soon as the deadline has passed;
and when every attempt fails it returns the error of the last attempt
made. -/
theorem dialHostHard_spec (addrsLen : Nat) (rt wt now ddt : Int)
    (dials : Nat → Option Err) (times : Nat → Int)
    (hrt : 0 ≤ rt) (hwt : 0 ≤ wt) :
    ((dialHostHard addrsLen rt wt now ddt dials times).2 ≤
      (if addrsLen = 0 then 1 else addrsLen)) ∧
    (addrsLen = 0 → (dialHostHard addrsLen rt wt now ddt dials times).2 = 1) ∧
    (dialDeadline now rt wt ddt =
      if rt = 0 ∧ wt = 0 then now + ddt else now + (rt + wt)) ∧
    ((∀ j, (dials j).isSome) → ∃ a, 1 ≤ a ∧
      dialHostHard addrsLen rt wt now ddt dials times = (dials (a - 1), a)) ∧
    (∀ m, (∀ j, j ≤ m → (dials j).isSome) →
      (∀ j, j < m → times j - dialDeadline now rt wt ddt < 0) →
      0 ≤ times m - dialDeadline now rt wt ddt →
      m + 1 ≤ (if addrsLen = 0 then 1 else addrsLen) →
      dialHostHard addrsLen rt wt now ddt dials times = (dials m, m + 1)) := by
  refine ⟨?_, ?_, ?_, ?_, ?_⟩
  · have h := dialLoop_attempts_le dials times (dialDeadline now rt wt ddt)
      (if addrsLen = 0 then 1 else addrsLen) 0 none
    unfold dialHostHard
    omega
  · intro h0
    unfold dialHostHard
    rw [if_pos h0]
    cases hd : dials 0 with
    | none => simp [dialLoop, hd]
    | some e =>
      by_cases hs : 0 ≤ times 0 - dialDeadline now rt wt ddt
      · simp [dialLoop, hd, hs]
      · simp [dialLoop, hd, hs]
  · unfold dialDeadline
    by_cases h : rt + wt ≤ 0
    · rw [if_pos h, if_pos (by omega)]
    · rw [if_neg h, if_neg (by omega)]
  · intro hall
    have := dialLoop_all_fail dials times (dialDeadline now rt wt ddt)
      (if addrsLen = 0 then 1 else addrsLen) 0 none (by split <;> omega) hall
    obtain ⟨a, ha1, ha2⟩ := this
    exact ⟨a, by omega, ha2⟩
  · intro m hsome htimes hstop hn
    unfold dialHostHard
    have := dialLoop_early_stop dials times (dialDeadline now rt wt ddt)
      m (if addrsLen = 0 then 1 else addrsLen) 0 none
      (fun j h1 h2 => hsome j (by omega))
      (fun j h1 h2 => htimes j (by omega))
      (by simpa using hstop) hn
    simpa using this

/-- Witness for C8 at two addresses, both dials failing, the deadline not
yet passed: the last dial error is returned after two attempts. -/
theorem dialHostHard_spec_witness :
    ∃ a, 1 ≤ a ∧
      dialHostHard 2 0 0 0 5 (fun j => some (Err.other j)) (fun _ => 1) =
        ((fun j => some (Err.other j)) (a - 1), a) :=
  (dialHostHard_spec 2 0 0 0 5 (fun j => some (Err.other j)) (fun _ => 1)
    (by omega) (by omega)).2.2.2.1 (fun j => rfl)
